import Mathlib

/-!
Verification of the extraction pipeline in `extract_pdf.py` (Airbus TSM reset
extractor).  Strings are embedded as `List Char`; each Python regular
expression is transliterated into a small regex AST (`RE`) executed by a
fuel-bounded backtracking matcher `mat` whose alternation / greediness /
laziness order follows Python's `re` engine (leftmost match, first
alternative preferred, greedy = longest first, lazy = shortest first,
lookahead atomic, capture groups recorded on the successful path).
-/

abbrev Str := List Char

def str (s : String) : Str := s.data

/-- Python whitespace set for `\s` and `str.strip()` (ASCII inputs). -/
def isSpaceC (c : Char) : Bool :=
  c = ' ' ∨ c = '\t' ∨ c = '\n' ∨ c = '\r' ∨ c = '\x0b' ∨ c = '\x0c'

/-- `\d` -/
def isDigitC (c : Char) : Bool := c.isDigit

/-- `\w` (ASCII inputs): letters, digits and underscore. -/
def isWordC (c : Char) : Bool := c.isAlphanum ∨ c = '_'

/-- `[A-Z]` without IGNORECASE. -/
def isUpperAZ (c : Char) : Bool := 'A' ≤ c ∧ c ≤ 'Z'

/-- `[a-z]`. -/
def isLowerAZ (c : Char) : Bool := 'a' ≤ c ∧ c ≤ 'z'

/-- `[A-Z]` under IGNORECASE: any ASCII letter. -/
def isLetterCI (c : Char) : Bool := isUpperAZ c ∨ isLowerAZ c

/-- `str.strip()`. -/
def pyStrip (l : Str) : Str :=
  ((l.dropWhile isSpaceC).reverse.dropWhile isSpaceC).reverse

/-- `str.strip("-")`. -/
def stripDash (l : Str) : Str :=
  ((l.dropWhile (fun c => c = '-')).reverse.dropWhile (fun c => c = '-')).reverse

/-- `str.upper()` (ASCII). -/
def pyUpper (l : Str) : Str := l.map Char.toUpper

/-- `str.lower()` (ASCII). -/
def pyLower (l : Str) : Str := l.map Char.toLower

/-- Does `hay` start with `needle`? -/
def startsSeq : Str → Str → Bool
  | [], _ => true
  | _ :: _, [] => false
  | a :: as, b :: bs => a = b ∧ startsSeq as bs

/-- Python's `needle in hay` substring test. -/
def containsSeq (needle : Str) : Str → Bool
  | [] => startsSeq needle []
  | c :: t => startsSeq needle (c :: t) ∨ containsSeq needle t

/-- `hay.replace(needle, "")`, left-to-right non-overlapping, with fuel. -/
def removeAllF (needle : Str) : Nat → Str → Str
  | 0, hay => hay
  | _ + 1, [] => []
  | f + 1, c :: rest =>
    if needle ≠ [] ∧ startsSeq needle (c :: rest) then
      removeAllF needle f ((c :: rest).drop needle.length)
    else
      c :: removeAllF needle f rest

/-- `hay.replace(needle, "")`. -/
def removeAll (needle hay : Str) : Str := removeAllF needle hay.length hay

/-- `text.split("\n")` helper. -/
def splitNlAux (cur : Str) : Str → List Str
  | [] => [cur.reverse]
  | c :: rest =>
    if c = '\n' then cur.reverse :: splitNlAux [] rest else splitNlAux (c :: cur) rest

/-- Python `text.split("\n")`. -/
def splitNl (s : Str) : List Str := splitNlAux [] s

/-- `txt.replace("\n", " ")`. -/
def collapseNl (l : Str) : Str := l.map (fun c => if c = '\n' then ' ' else c)

/-- `int(...)` on a decimal digit string. -/
def digitsVal (l : Str) : Nat := l.foldl (fun acc c => acc * 10 + (c.toNat - '0'.toNat)) 0

/-- Python slice `s[a:b]`. -/
def sliceL (s : Str) (a b : Nat) : Str := (s.take b).drop a

/-- `list(dict.fromkeys(...))`: deduplication keeping first occurrences. -/
def dedupSeen (seen : List Str) : List Str → List Str
  | [] => []
  | x :: xs => if x ∈ seen then dedupSeen seen xs else x :: dedupSeen (x :: seen) xs

def dedupFirst (l : List Str) : List Str := dedupSeen [] l

/-! ## Regex AST and matcher -/

/-- Regex AST corresponding to the Python patterns of `extract_pdf.py`. -/
inductive RE where
  | eps
  | cls (p : Char → Bool)
  | lit (cs : Str) (ci : Bool)
  | seq (a b : RE)
  | alt (a b : RE)
  | starG (r : RE)
  | starL (r : RE)
  | grp (n : Nat) (r : RE)
  | look (r : RE)
  | wordB
  | endS

/-- Captured group spans: (group index, start, stop), most recent first. -/
abbrev Caps := List (Nat × Nat × Nat)

abbrev MRes := Nat × Caps

def eqCharCI (ci : Bool) (a b : Char) : Bool :=
  if ci then a.toLower = b.toLower else a = b

/-- Does literal `cs` occur at offset `i` of `s` (case-insensitive if `ci`)? -/
def litAt (ci : Bool) (s : Str) : Str → Nat → Bool
  | [], _ => true
  | c :: rest, i =>
    match s.get? i with
    | some d => eqCharCI ci c d ∧ litAt ci s rest (i + 1)
    | none => false

def isWordAt (s : Str) (i : Nat) : Bool :=
  match s.get? i with
  | some c => isWordC c
  | none => false

/-- `\b`: word-character status changes between positions `i-1` and `i`. -/
def wordBoundary (s : Str) (i : Nat) : Bool :=
  (if i = 0 then false else isWordAt s (i - 1)) ≠ isWordAt s i

def orElseO (o : Option MRes) (g : Unit → Option MRes) : Option MRes :=
  match o with
  | some a => some a
  | none => g ()

/-- Backtracking matcher in continuation-passing style.  `mat s f r i c k`
tries to match `r` at offset `i` of `s` with capture list `c`; on each
candidate end offset `j` it calls `k j caps`, returning the first success.
Star repetition requires strict progress (as Python's engine effectively
does for the non-nullable bodies used here); `f` is recursion fuel. -/
def mat (s : Str) : Nat → RE → Nat → Caps → (Nat → Caps → Option MRes) → Option MRes
  | 0, _, _, _, _ => none
  | f + 1, r, i, c, k =>
    match r with
    | .eps => k i c
    | .cls p =>
      match s.get? i with
      | some d => if p d then k (i + 1) c else none
      | none => none
    | .lit cs ci => if litAt ci s cs i then k (i + cs.length) c else none
    | .seq a b => mat s f a i c (fun j c2 => mat s f b j c2 k)
    | .alt a b => orElseO (mat s f a i c k) (fun _ => mat s f b i c k)
    | .starG r1 =>
      orElseO
        (mat s f r1 i c (fun j c2 => if i < j then mat s f (.starG r1) j c2 k else none))
        (fun _ => k i c)
    | .starL r1 =>
      orElseO (k i c)
        (fun _ => mat s f r1 i c (fun j c2 => if i < j then mat s f (.starL r1) j c2 k else none))
    | .grp n r1 => mat s f r1 i c (fun j c2 => k j ((n, i, j) :: c2))
    | .look r1 =>
      match mat s f r1 i c (fun j c2 => some (j, c2)) with
      | some _ => k i c
      | none => none
    | .wordB => if wordBoundary s i then k i c else none
    | .endS => if i = s.length then k i c else none

/-- Fuel that dominates the matcher's recursion depth on `s`. -/
def fuelFor (s : Str) : Nat := (s.length + 1) * 100

/-- Match `r` at offset `i` (Python `re.match` at a fixed position). -/
def matchAt (r : RE) (s : Str) (i : Nat) : Option MRes :=
  mat s (fuelFor s) r i [] (fun j c => some (j, c))

/-- Scan positions `p, p+1, ...` for the leftmost match (fuel-bounded). -/
def searchAux (r : RE) (s : Str) : Nat → Nat → Option (Nat × Nat × Caps)
  | 0, _ => none
  | f + 1, p =>
    match matchAt r s p with
    | some (e, c) => some (p, e, c)
    | none => if p < s.length then searchAux r s f (p + 1) else none

/-- Python `re.search` from offset `p`. -/
def searchFrom (r : RE) (s : Str) (p : Nat) : Option (Nat × Nat × Caps) :=
  searchAux r s (s.length + 1 - p) p

/-- Python `re.search`. -/
def searchTop (r : RE) (s : Str) : Option (Nat × Nat × Caps) := searchFrom r s 0

/-- Python `re.finditer` scanning: after a match, continue at its end
(advancing one position on an empty match). -/
def findIter (r : RE) (s : Str) : Nat → Nat → List (Nat × Nat × Caps)
  | 0, _ => []
  | f + 1, p =>
    match searchFrom r s p with
    | none => []
    | some (q, e, c) => (q, e, c) :: findIter r s f (if e = q then e + 1 else e)

def findIterAll (r : RE) (s : Str) : List (Nat × Nat × Caps) :=
  findIter r s (s.length + 2) 0

/-- `m.group(n)` as a string (empty for an unmatched group; all uses below
are on groups that participate in every match). -/
def groupStr (s : Str) (m : Nat × Nat × Caps) (n : Nat) : Str :=
  match m.2.2.find? (fun e => e.1 = n) with
  | some e => sliceL s e.2.1 e.2.2
  | none => []

/-- Number of capture groups of a pattern (`len(m.groups())`). -/
def RE.maxGrp : RE → Nat
  | .eps | .cls _ | .lit _ _ | .wordB | .endS => 0
  | .seq a b | .alt a b => max a.maxGrp b.maxGrp
  | .starG r | .starL r | .look r => r.maxGrp
  | .grp n r => max n r.maxGrp

/-- Shortest length a match of `r` can consume. -/
def RE.minL : RE → Nat
  | .eps => 0
  | .cls _ => 1
  | .lit cs _ => cs.length
  | .seq a b => a.minL + b.minL
  | .alt a b => min a.minL b.minL
  | .starG _ => 0
  | .starL _ => 0
  | .grp _ r => r.minL
  | .look _ => 0
  | .wordB => 0
  | .endS => 0

/-! Derived regex combinators (transliterations of `+`, `?`, `{m,n}`, `+?`). -/

/-- `r+` greedy. -/
def plusG (r : RE) : RE := .seq r (.starG r)

/-- `r?` greedy. -/
def optG (r : RE) : RE := .alt r .eps

/-- `r{0,k}` greedy (prefers more repetitions first). -/
def upto : Nat → RE → RE
  | 0, _ => .eps
  | k + 1, r => .alt (.seq r (upto k r)) .eps

/-- `r+?` lazy. -/
def plusL (r : RE) : RE := .seq r (.starL r)

/-- `.` with DOTALL / `[\s\S]`. -/
def anyC : RE := .cls (fun _ => true)

def spC : RE := .cls isSpaceC
def digC : RE := .cls isDigitC
def wC : RE := .cls isWordC

/-! ## The concrete patterns of `extract_pdf.py` -/

/-- `(SUBTASK\s+[\d-]+\s*[-–]\s*[\w\s]+)` with IGNORECASE (block header). -/
def subtaskRE : RE :=
  .seq (.lit (str "SUBTASK") true)
    (.seq (plusG spC)
      (.seq (plusG (.cls (fun c => isDigitC c ∨ c = '-')))
        (.seq (.starG spC)
          (.seq (.cls (fun c => c = '-' ∨ c = '–'))
            (.seq (.starG spC)
              (plusG (.cls (fun c => isWordC c ∨ isSpaceC c))))))))

/-- `<<<PAGE (\d+)>>>` (page provenance sentinels). -/
def pageRE : RE :=
  .seq (.lit (str "<<<PAGE ") false)
    (.seq (.grp 1 (plusG digC)) (.lit (str ">>>") false))

/-- `\*\*\s*ON\s+A/C\s+FSN\s+([\d\s,\-–]+(?:TO|AND|OR|,|[\d\s])*)` IGNORECASE. -/
def fsnRE : RE :=
  .seq (.lit (str "**") true)
    (.seq (.starG spC)
      (.seq (.lit (str "ON") true)
        (.seq (plusG spC)
          (.seq (.lit (str "A/C") true)
            (.seq (plusG spC)
              (.seq (.lit (str "FSN") true)
                (.seq (plusG spC)
                  (.grp 1
                    (.seq
                      (plusG (.cls (fun c =>
                        isDigitC c ∨ isSpaceC c ∨ c = ',' ∨ c = '-' ∨ c = '–')))
                      (.starG (.alt (.lit (str "TO") true)
                        (.alt (.lit (str "AND") true)
                          (.alt (.lit (str "OR") true)
                            (.alt (.lit (str ",") true)
                              (.cls (fun c => isDigitC c ∨ isSpaceC c))))))))))))))))

/-- `0[5-9]\d-\d+` (CEO serial-number range tokens). -/
def ceoRangeRE : RE :=
  .seq (.lit (str "0") false)
    (.seq (.cls (fun c => '5' ≤ c ∧ c ≤ '9'))
      (.seq digC (.seq (.lit (str "-") false) (plusG digC))))

/-- `1\d\d-\d+` (NEO serial-number range tokens). -/
def neoRangeRE : RE :=
  .seq (.lit (str "1") false)
    (.seq digC (.seq digC (.seq (.lit (str "-") false) (plusG digC))))

/-- `05[1-9]|0[6-9]\d|100` (single CEO serial numbers). -/
def ceoSingleRE : RE :=
  .alt (.seq (.lit (str "05") false) (.cls (fun c => '1' ≤ c ∧ c ≤ '9')))
    (.alt (.seq (.lit (str "0") false) (.seq (.cls (fun c => '6' ≤ c ∧ c ≤ '9')) digC))
      (.lit (str "100") false))

/-- `10[1-9]|1[1-4]\d|150` (single NEO serial numbers). -/
def neoSingleRE : RE :=
  .alt (.seq (.lit (str "10") false) (.cls (fun c => '1' ≤ c ∧ c ≤ '9')))
    (.alt (.seq (.lit (str "1") false) (.seq (.cls (fun c => '1' ≤ c ∧ c ≤ '4')) digC))
      (.lit (str "150") false))

/-- `(?:ATA|TASK)\s+(\d{2})[-–\s]` (case-sensitive). -/
def ataRE : RE :=
  .seq (.alt (.lit (str "ATA") false) (.lit (str "TASK") false))
    (.seq (plusG spC)
      (.seq (.grp 1 (.seq digC digC))
        (.cls (fun c => c = '-' ∨ c = '–' ∨ isSpaceC c))))

/-- One alternative `KW[^:\n]*[:–\-]\s*` of the ECAM declaration prefix. -/
def ecamKw (kw : String) : RE :=
  .seq (.lit (str kw) true)
    (.seq (.starG (.cls (fun c => ¬ (c = ':' ∨ c = '\n'))))
      (.seq (.cls (fun c => c = ':' ∨ c = '–' ∨ c = '-')) (.starG spC)))

/-- `(?:ECAM...|ALERT...|MESSAGE...)([A-Z][A-Z0-9 /\+]+)` with IGNORECASE
(so `[A-Z]` admits both cases). -/
def ecamRE : RE :=
  .seq (.alt (ecamKw "ECAM") (.alt (ecamKw "ALERT") (ecamKw "MESSAGE")))
    (.grp 1 (.seq (.cls isLetterCI)
      (plusG (.cls (fun c => isLetterCI c ∨ isDigitC c ∨ c = ' ' ∨ c = '/' ∨ c = '+')))))

/-- `\b([A-Z]{2,4}(?:\s+[A-Z]{2,})+(?:\s+\d+)?(?:\s+FAULT)?)\b`
(case-sensitive known-identifier fallback). -/
def knownRE : RE :=
  .seq .wordB
    (.seq
      (.grp 1
        (.seq (.seq (.cls isUpperAZ) (.seq (.cls isUpperAZ) (upto 2 (.cls isUpperAZ))))
          (.seq (plusG (.seq (plusG spC) (.seq (.cls isUpperAZ) (plusG (.cls isUpperAZ)))))
            (.seq (optG (.seq (plusG spC) (plusG digC)))
              (optG (.seq (plusG spC) (.lit (str "FAULT") false)))))))
      .wordB)

/-- `(?:COMPUTER|AFFECTED COMPUTER|SYSTEM)[:\s]+([A-Z0-9/\-]+(?:\s+[A-Z0-9/\-]+)?)`
with IGNORECASE. -/
def compRE : RE :=
  .seq (.alt (.lit (str "COMPUTER") true)
      (.alt (.lit (str "AFFECTED COMPUTER") true) (.lit (str "SYSTEM") true)))
    (.seq (plusG (.cls (fun c => c = ':' ∨ isSpaceC c)))
      (.grp 1
        (.seq (plusG (.cls (fun c => isLetterCI c ∨ isDigitC c ∨ c = '/' ∨ c = '-')))
          (optG (.seq (plusG spC)
            (plusG (.cls (fun c => isLetterCI c ∨ isDigitC c ∨ c = '/' ∨ c = '-'))))))))

/-- The lookahead `(?=CIRCUIT BREAKER|WARNING|CAUTION|NOTE|SUBTASK|\Z)`. -/
def procTermRE : RE :=
  .alt (.lit (str "CIRCUIT BREAKER") true)
    (.alt (.lit (str "WARNING") true)
      (.alt (.lit (str "CAUTION") true)
        (.alt (.lit (str "NOTE") true)
          (.alt (.lit (str "SUBTASK") true) .endS))))

/-- `(?:RESET PROCEDURE|PROCEDURE)[:\s]*([\s\S]+?)(?=...)` with IGNORECASE. -/
def procRE : RE :=
  .seq (.alt (.lit (str "RESET PROCEDURE") true) (.lit (str "PROCEDURE") true))
    (.seq (.starG (.cls (fun c => c = ':' ∨ isSpaceC c)))
      (.seq (.grp 1 (plusL anyC)) (.look procTermRE)))

/-- Advisory pattern `KW\s*[:\-]?\s*(.+?)(?=T1|T2|KW|\n\n|\Z)` with
IGNORECASE and DOTALL. -/
def advisoryRE (kw t1 t2 : String) : RE :=
  .seq (.lit (str kw) true)
    (.seq (.starG spC)
      (.seq (optG (.cls (fun c => c = ':' ∨ c = '-')))
        (.seq (.starG spC)
          (.seq (.grp 1 (plusL anyC))
            (.look (.alt (.lit (str t1) true)
              (.alt (.lit (str t2) true)
                (.alt (.lit (str kw) true)
                  (.alt (.lit (str "\n\n") true) .endS)))))))))

/-- `WARNING\s*[:\-]?\s*(.+?)(?=CAUTION|NOTE|WARNING|\n\n|\Z)`. -/
def warnRE : RE := advisoryRE "WARNING" "CAUTION" "NOTE"

/-- `CAUTION\s*[:\-]?\s*(.+?)(?=WARNING|NOTE|CAUTION|\n\n|\Z)`. -/
def cautRE : RE := advisoryRE "CAUTION" "WARNING" "NOTE"

/-- `NOTE\s*[:\-]?\s*([\s\S]+?)(?=WARNING|CAUTION|CIRCUIT|SUBTASK|\Z)` IGNORECASE. -/
def noteRE : RE :=
  .seq (.lit (str "NOTE") true)
    (.seq (.starG spC)
      (.seq (optG (.cls (fun c => c = ':' ∨ c = '-')))
        (.seq (.starG spC)
          (.seq (.grp 1 (plusL anyC))
            (.look (.alt (.lit (str "WARNING") true)
              (.alt (.lit (str "CAUTION") true)
                (.alt (.lit (str "CIRCUIT") true)
                  (.alt (.lit (str "SUBTASK") true) .endS)))))))))

/-- Full circuit-breaker row
`(\d{2,3}VU)\s+([\w/\- ]+?)\s+(\w{2,6})\s+([A-Z]\d{2})\s*([\d\-,\s]*)` IGNORECASE. -/
def cbFullRE : RE :=
  .seq (.grp 1 (.seq (.seq digC (.seq digC (upto 1 digC))) (.lit (str "VU") true)))
    (.seq (plusG spC)
      (.seq (.grp 2 (plusL (.cls (fun c => isWordC c ∨ c = '/' ∨ c = '-' ∨ c = ' '))))
        (.seq (plusG spC)
          (.seq (.grp 3 (.seq wC (.seq wC (upto 4 wC))))
            (.seq (plusG spC)
              (.seq (.grp 4 (.seq (.cls isLetterCI) (.seq digC digC)))
                (.seq (.starG spC)
                  (.grp 5 (.starG (.cls (fun c =>
                    isDigitC c ∨ c = '-' ∨ c = ',' ∨ isSpaceC c)))))))))))

/-- Partial circuit-breaker row `\b(\d\w{1,5})\b\s+(?:AT\s+)?([A-Z]\d{2})\b` IGNORECASE. -/
def cbPartialRE : RE :=
  .seq .wordB
    (.seq (.grp 1 (.seq digC (.seq wC (upto 4 wC))))
      (.seq .wordB
        (.seq (plusG spC)
          (.seq (optG (.seq (.lit (str "AT") true) (plusG spC)))
            (.seq (.grp 2 (.seq (.cls isLetterCI) (.seq digC digC))) .wordB)))))

/-- `^\d+[\.\)]\s*` stripped from the front of one step line (`re.sub`). -/
def stripStepNum (l : Str) : Str :=
  if (l.takeWhile isDigitC).isEmpty then l
  else
    match l.dropWhile isDigitC with
    | c :: rest => if c = '.' ∨ c = ')' then rest.dropWhile isSpaceC else l
    | [] => l

/-- `re.sub(r"[^a-z0-9]+", "-", ...)`: collapse runs of other characters. -/
def idSubKeep (c : Char) : Bool := isLowerAZ c ∨ isDigitC c

def idSubAux (inRun : Bool) : Str → Str
  | [] => []
  | c :: rest =>
    if idSubKeep c then c :: idSubAux false rest
    else if inRun then idSubAux true rest
    else '-' :: idSubAux true rest

def idSub (l : Str) : Str := idSubAux false l

/-! ## Data model -/

/-- One extracted page: `{"page": i+1, "text": ...}`. -/
structure Page where
  page : Nat
  text : Str
deriving DecidableEq, Repr

/-- One SUBTASK block: `{"subtask_header": ..., "text": ..., "page": ...}`. -/
structure Blk where
  subtask_header : Str
  text : Str
  page : Nat
deriving DecidableEq, Repr

/-- One circuit-breaker reference row. -/
structure CBRow where
  panel : Str
  designation : Str
  fin : Str
  location : Str
  fsn : Str
deriving DecidableEq, Repr

/-- The structured record built by `parse_block` (keys of the returned dict;
`_source_page` and `_fsn_raw` are `sourcePage` and `fsnRaw`). -/
structure Entry where
  id : Str
  aircraft : List Str
  ecamMessages : List Str
  ata : Str
  computer : Str
  resetProcedure : Str
  notes : Str
  warnings : List Str
  cautions : List Str
  cbTable : List CBRow
  sourcePage : Nat
  fsnRaw : Str
deriving DecidableEq, Repr

/-! ## Applicability resolver -/

/-- `fsn_to_aircraft`: FSN marker string to aircraft list. -/
def fsn_to_aircraft (fsn_marker : Str) : List Str :=
  if fsn_marker.isEmpty || containsSeq (str "ALL") (pyUpper fsn_marker) then
    [str "CEO", str "NEO"]
  else
    let ceo_ranges := findIterAll ceoRangeRE fsn_marker
    let neo_ranges := findIterAll neoRangeRE fsn_marker
    let has_ceo := !ceo_ranges.isEmpty || (searchTop ceoSingleRE fsn_marker).isSome
    let has_neo := !neo_ranges.isEmpty || (searchTop neoSingleRE fsn_marker).isSome
    let aircraft := (if has_ceo then [str "CEO"] else []) ++ (if has_neo then [str "NEO"] else [])
    if aircraft.isEmpty then [str "CEO", str "NEO"] else aircraft

/-! ## Block segmenter -/

/-- The concatenation with page sentinels:
`full_with_markers += f"\n<<<PAGE {p.page}>>>\n" + p.text` per page. -/
def fullWithMarkers (pages : List Page) : Str :=
  pages.foldl (fun acc p =>
    acc ++ str "\n<<<PAGE " ++ (Nat.repr p.page).data ++ str ">>>\n" ++ p.text) []

/-- `int(page_markers[-1]) if page_markers else 0` over `<<<PAGE (\d+)>>>`
matches found in the text preceding a block. -/
def lastPageNum (preceding : Str) : Nat :=
  match ((findIterAll pageRE preceding).map (fun m => groupStr preceding m 1)).getLast? with
  | some g => digitsVal g
  | none => 0

/-- Blocks from the header matches: each block spans from its header match
start to the next match start (or end of text). -/
def blocksFrom (full : Str) : List (Nat × Nat × Caps) → List Blk
  | [] => []
  | (q, e, _) :: rest =>
    let nxt := match rest with
      | [] => full.length
      | (q2, _, _) :: _ => q2
    { subtask_header := pyStrip (sliceL full q e)
      text := sliceL full q nxt
      page := lastPageNum (full.take q) } :: blocksFrom full rest

/-- `split_into_blocks`. -/
def split_into_blocks (pages : List Page) : List Blk :=
  let full := fullWithMarkers pages
  blocksFrom full (findIterAll subtaskRE full)

/-! ## Reference-table extractor -/

/-- Rows extracted by one pattern: a match contributes a row only when the
pattern has at least 4 capture groups (`if len(groups) >= 4`). -/
def cbEntriesFor (text dflt : Str) (r : RE) : List CBRow :=
  let ng := r.maxGrp
  (findIterAll r text).filterMap (fun m =>
    if 4 ≤ ng then
      some
        { panel := pyStrip (groupStr text m 1)
          designation := pyStrip (groupStr text m 2)
          fin := pyStrip (groupStr text m 3)
          location := pyStrip (groupStr text m 4)
          fsn := if 4 < ng ∧ ¬ (pyStrip (groupStr text m 5)).isEmpty
                 then pyStrip (groupStr text m 5) else dflt }
    else none)

/-- The two-pattern loop with `break` on the first pattern yielding entries. -/
def cbRawEntries (text dflt : Str) : List CBRow :=
  let e1 := cbEntriesFor text dflt cbFullRE
  if e1.isEmpty then cbEntriesFor text dflt cbPartialRE else e1

/-- Deduplicate rows by `fin`, keeping first occurrences (`seen_fins`). -/
def dedupeFin (seen : List Str) : List CBRow → List CBRow
  | [] => []
  | cb :: rest =>
    if cb.fin ∈ seen then dedupeFin seen rest
    else cb :: dedupeFin (cb.fin :: seen) rest

/-- `parse_cb_table(text, default_fsn)`. -/
def parse_cb_table (text dflt : Str) : List CBRow :=
  (dedupeFin [] (cbRawEntries text dflt)).take 10

/-! ## Field extractors and block parser -/

/-- Primary ECAM message extraction (declaration phrases, strip, length > 4,
dedup keeping first occurrences). -/
def ecamPrimary (text : Str) : List Str :=
  dedupFirst
    (((findIterAll ecamRE text).map (fun m => pyStrip (groupStr text m 1))).filter
      (fun g => 4 < g.length))

/-- Fallback on known upper-case identifier shapes (`len(k) > 6`, strip,
dedup, capped at 4). -/
def ecamKnownFallback (text : Str) : List Str :=
  (dedupFirst
    ((((findIterAll knownRE text).map (fun m => groupStr text m 1)).filter
      (fun k => 6 < k.length)).map pyStrip)).take 4

/-- The full layered message-identifier chain of `parse_block`, ending with
the header with the `SUBTASK` keyword removed. -/
def ecamMsgsOf (b : Blk) : List Str :=
  let e0 := ecamPrimary b.text
  let e1 := if e0.isEmpty then ecamKnownFallback b.text else e0
  if e1.isEmpty then [pyStrip (removeAll (str "SUBTASK") b.subtask_header)] else e1

/-- Cleaned, renumbered procedure steps from the raw captured span. -/
def stepsOf (raw_proc : Str) : List Str :=
  (splitNl raw_proc).filterMap (fun line =>
    let l := pyStrip line
    if l.isEmpty ∨ l.length < 5 then none else some (stripStepNum l))

/-- `parse_block`: one SUBTASK block to a structured entry. -/
def parse_block (block : Blk) : Entry :=
  let text := block.text
  let page := block.page
  let fsn_str := match searchTop fsnRE text with
    | some m => pyStrip (groupStr text m 1)
    | none => str "ALL"
  let aircraft := fsn_to_aircraft fsn_str
  let ata := match searchTop ataRE text with
    | some m => groupStr text m 1
    | none => str "00"
  let ecam_msgs := ecamMsgsOf block
  let computer := match searchTop compRE text with
    | some m => pyStrip (groupStr text m 1)
    | none => []
  let raw_proc := match searchTop procRE text with
    | some m => pyStrip (groupStr text m 1)
    | none => []
  let steps := stepsOf raw_proc
  let reset_procedure :=
    if ¬ steps.isEmpty then
      List.intercalate (str "\n")
        (steps.enum.map (fun p => (Nat.repr (p.1 + 1)).data ++ str ". " ++ p.2))
    else raw_proc
  let warnings :=
    ((findIterAll warnRE text).map (fun m => collapseNl (pyStrip (groupStr text m 1)))).filter
      (fun t => ¬ t.isEmpty ∧ 10 < t.length)
  let cautions :=
    ((findIterAll cautRE text).map (fun m => collapseNl (pyStrip (groupStr text m 1)))).filter
      (fun t => ¬ t.isEmpty ∧ 10 < t.length)
  let notes := match searchTop noteRE text with
    | some m => collapseNl (pyStrip (groupStr text m 1))
    | none => []
  let cb_table := parse_cb_table text fsn_str
  let id_base := if ¬ ecam_msgs.isEmpty then pyLower (ecam_msgs.headD [])
                 else pyLower block.subtask_header
  let id_str := (stripDash (idSub id_base)).take 60 ++ str "-p" ++ (Nat.repr page).data
  { id := id_str
    aircraft := aircraft
    ecamMessages := ecam_msgs
    ata := ata
    computer := computer
    resetProcedure := reset_procedure
    notes := notes
    warnings := warnings
    cautions := cautions
    cbTable := cb_table
    sourcePage := page
    fsnRaw := fsn_str }

/-! ## Pipeline driver -/

/-- `parse_block` seen through its declared `dict | None` interface: the body
always reaches its single `return {...}`. -/
def parse_blockOpt (b : Blk) : Option Entry := some (parse_block b)

/-- The driver loop: append each non-`None` entry, count skips otherwise. -/
def processBlocks : List Blk → List Entry × Nat
  | [] => ([], 0)
  | b :: rest =>
    match parse_blockOpt b with
    | some e =>
      let p := processBlocks rest
      (e :: p.1, p.2)
    | none =>
      let p := processBlocks rest
      (p.1, p.2 + 1)

/-- The fresh-run record list. -/
def runFresh (pages : List Page) : List Entry :=
  (processBlocks (split_into_blocks pages)).1

/-- `--merge`: keep every existing record, append only fresh records whose id
is not already present. -/
def mergeMessages (existing fresh : List Entry) : List Entry :=
  let existing_ids := existing.map (fun m => m.id)
  existing ++ fresh.filter (fun m => ¬ m.id ∈ existing_ids)

/-- The persisted output document. -/
structure OutputDoc where
  version : Str
  lastUpdated : Str
  source : Str
  messages : List Entry
deriving DecidableEq, Repr

def buildOutput (today source : Str) (msgs : List Entry) : OutputDoc :=
  { version := str "1.0", lastUpdated := today, source := source, messages := msgs }

/-! ## Slice views and concrete inputs used by the claims -/

/-- The body slices induced by a list of match start offsets: each start is
paired with the next start (or the text length for the last). -/
def zipSlices (s : Str) (qs : List Nat) : List Str :=
  (qs.zip (qs.tail ++ [s.length])).map (fun ab => sliceL s ab.1 ab.2)

/-- The block of the scenario of claim C3: header and body as stated there,
origin page 1. -/
def c3blk : Blk :=
  { subtask_header := str "SUBTASK 24-00-810 - PACK FAULT RESET"
    text := str "SUBTASK 24-00-810 - PACK FAULT RESET\n** ON A/C FSN 051-070\nRESET PROCEDURE: 1. Open panel 2. Press button\n"
    page := 1 }

/-- One page holding two textually identical SUBTASK blocks. -/
def c4pages : List Page :=
  [{ page := 1, text := str "SUBTASK 10-20 - PACKFAULT *\nxx\nSUBTASK 10-20 - PACKFAULT *\nxx\n" }]

/-- A minimal one-block document. -/
def w1pages : List Page := [{ page := 1, text := str "SUBTASK 1-1 - AB*" }]

/-- A block on which no message-identifier pattern matches. -/
def c7blk : Blk := { subtask_header := str "SUBTASK 1-1 - AB", text := str "zz", page := 1 }

/-- Block text holding two full circuit-breaker rows with the same FIN code. -/
def c8text : Str := str "49VU AIR COND 1CA1 D01 X\n49VU PACK SPLY 1CA1 D02"

/-- The first reference row extracted from `c8text`. -/
def c8row : CBRow :=
  { panel := str "49VU", designation := str "AIR COND", fin := str "1CA1"
    location := str "D01", fsn := str "ALL" }

/-- An entry with a given id and default contents (for the merge scenario). -/
def mkEnt (i : Str) : Entry :=
  { id := i, aircraft := [], ecamMessages := [], ata := [], computer := []
    resetProcedure := [], notes := [], warnings := [], cautions := []
    cbTable := [], sourcePage := 0, fsnRaw := [] }

/-- The single entry parsed from `w1pages`. -/
def w1entry : Entry :=
  parse_block { subtask_header := str "SUBTASK 1-1 - AB", text := str "SUBTASK 1-1 - AB*", page := 1 }

/-! ## Engine lemmas -/

theorem litAt_le (ci : Bool) (s : Str) :
    ∀ (cs : Str) (i : Nat), i ≤ s.length → litAt ci s cs i = true →
      i + cs.length ≤ s.length := by
  intro cs
  induction cs with
  | nil => intro i hi _; simpa using hi
  | cons c rest ih =>
    intro i hi h
    simp only [litAt] at h
    cases hg : s.get? i with
    | none => rw [hg] at h; simp at h
    | some d =>
      rw [hg] at h
      have hlt : i < s.length := by
        by_contra hc
        push_neg at hc
        rw [List.get?_eq_none.mpr hc] at hg
        exact Option.noConfusion hg
      simp only [Bool.and_eq_true, decide_eq_true_eq] at h
      have := ih (i + 1) hlt h.2
      simp only [List.length_cons]
      omega

theorem orElseO_eq_some {o : Option MRes} {g : Unit → Option MRes} {out : MRes}
    (h : orElseO o g = some out) : o = some out ∨ (g () = some out) := by
  cases o with
  | some a => left; simpa [orElseO] using h
  | none => right; simpa [orElseO] using h

/-- Soundness of the matcher: a successful run invoked its continuation at
an offset that is in bounds and at least `minL` beyond the start. -/
theorem mat_sound (s : Str) :
    ∀ (f : Nat) (r : RE) (i : Nat) (c : Caps) (k : Nat → Caps → Option MRes) (out : MRes),
      i ≤ s.length → mat s f r i c k = some out →
      ∃ j c2, i + r.minL ≤ j ∧ j ≤ s.length ∧ k j c2 = some out := by
  intro f
  induction f with
  | zero => intro r i c k out _ h; simp [mat] at h
  | succ f ih =>
    intro r i c k out hi h
    cases r with
    | eps =>
      exact ⟨i, c, by simp [RE.minL], hi, h⟩
    | cls p =>
      simp only [mat] at h
      cases hg : s.get? i with
      | none => rw [hg] at h; exact absurd h (by simp)
      | some d =>
        rw [hg] at h
        have hlt : i < s.length := by
          by_contra hc
          push_neg at hc
          rw [List.get?_eq_none.mpr hc] at hg
          exact Option.noConfusion hg
        have h' : (if p d = true then k (i + 1) c else none) = some out := h
        by_cases hp : p d = true
        · rw [if_pos hp] at h'
          exact ⟨i + 1, c, by simp [RE.minL], hlt, h'⟩
        · rw [if_neg hp] at h'
          exact absurd h' (by simp)
    | lit cs ci =>
      simp only [mat] at h
      cases hl : litAt ci s cs i with
      | false => rw [hl] at h; simp at h
      | true =>
        rw [hl] at h
        simp only [if_true] at h
        exact ⟨i + cs.length, c, by simp [RE.minL], litAt_le ci s cs i hi hl, h⟩
    | seq a b =>
      simp only [mat] at h
      obtain ⟨j1, c1, hj1, hle1, hk1⟩ := ih a i c _ out hi h
      obtain ⟨j2, c2, hj2, hle2, hk2⟩ := ih b j1 c1 k out hle1 hk1
      exact ⟨j2, c2, by simp only [RE.minL]; omega, hle2, hk2⟩
    | alt a b =>
      simp only [mat] at h
      rcases orElseO_eq_some h with h1 | h1
      · obtain ⟨j, c2, hj, hle, hk⟩ := ih a i c k out hi h1
        exact ⟨j, c2, by simp only [RE.minL]; have := Nat.min_le_left a.minL b.minL; omega,
          hle, hk⟩
      · obtain ⟨j, c2, hj, hle, hk⟩ := ih b i c k out hi h1
        exact ⟨j, c2, by simp only [RE.minL]; have := Nat.min_le_right a.minL b.minL; omega,
          hle, hk⟩
    | starG r1 =>
      simp only [mat] at h
      rcases orElseO_eq_some h with h1 | h1
      · obtain ⟨j1, c1, hj1, hle1, hk1⟩ := ih r1 i c _ out hi h1
        by_cases hij : i < j1
        · rw [if_pos hij] at hk1
          obtain ⟨j2, c2, hj2, hle2, hk2⟩ := ih (.starG r1) j1 c1 k out hle1 hk1
          exact ⟨j2, c2, by simp only [RE.minL]; omega, hle2, hk2⟩
        · rw [if_neg hij] at hk1
          exact absurd hk1 (by simp)
      · exact ⟨i, c, by simp [RE.minL], hi, h1⟩
    | starL r1 =>
      simp only [mat] at h
      rcases orElseO_eq_some h with h1 | h1
      · exact ⟨i, c, by simp [RE.minL], hi, h1⟩
      · obtain ⟨j1, c1, hj1, hle1, hk1⟩ := ih r1 i c _ out hi h1
        by_cases hij : i < j1
        · rw [if_pos hij] at hk1
          obtain ⟨j2, c2, hj2, hle2, hk2⟩ := ih (.starL r1) j1 c1 k out hle1 hk1
          exact ⟨j2, c2, by simp only [RE.minL]; omega, hle2, hk2⟩
        · rw [if_neg hij] at hk1
          exact absurd hk1 (by simp)
    | grp n r1 =>
      simp only [mat] at h
      obtain ⟨j, c2, hj, hle, hk⟩ := ih r1 i c _ out hi h
      exact ⟨j, (n, i, j) :: c2, by simpa [RE.minL] using hj, hle, hk⟩
    | look r1 =>
      simp only [mat] at h
      cases hm : mat s f r1 i c (fun j c2 => some (j, c2)) with
      | none => rw [hm] at h; exact absurd h (by simp)
      | some v =>
        rw [hm] at h
        exact ⟨i, c, by simp [RE.minL], hi, h⟩
    | wordB =>
      simp only [mat] at h
      cases hw : wordBoundary s i with
      | false => rw [hw] at h; simp at h
      | true =>
        rw [hw] at h
        simp only [if_true] at h
        exact ⟨i, c, by simp [RE.minL], hi, h⟩
    | endS =>
      simp only [mat] at h
      by_cases hl : i = s.length
      · rw [if_pos hl] at h
        exact ⟨i, c, by simp [RE.minL], hi, h⟩
      · rw [if_neg hl] at h
        exact absurd h (by simp)

theorem matchAt_bounds {r : RE} {s : Str} {q e : Nat} {cc : Caps}
    (hq : q ≤ s.length) (h : matchAt r s q = some (e, cc)) :
    q + r.minL ≤ e ∧ e ≤ s.length := by
  obtain ⟨j, c2, hj, hle, hk⟩ := mat_sound s (fuelFor s) r q [] _ (e, cc) hq h
  have : j = e := by simpa using congrArg Prod.fst (Option.some.inj hk)
  subst this
  exact ⟨hj, hle⟩

theorem searchAux_sound (r : RE) (s : Str) :
    ∀ (f p : Nat) (out : Nat × Nat × Caps), p ≤ s.length →
      searchAux r s f p = some out →
      p ≤ out.1 ∧ out.1 ≤ s.length ∧ matchAt r s out.1 = some (out.2.1, out.2.2) := by
  intro f
  induction f with
  | zero => intro p out _ h; simp [searchAux] at h
  | succ f ih =>
    intro p out hp h
    simp only [searchAux] at h
    cases hm : matchAt r s p with
    | some v =>
      rw [hm] at h
      obtain ⟨e, c⟩ := v
      have : out = (p, e, c) := by simpa using h.symm
      subst this
      exact ⟨Nat.le_refl p, hp, hm⟩
    | none =>
      rw [hm] at h
      by_cases hlt : p < s.length
      · rw [if_pos hlt] at h
        obtain ⟨h1, h2, h3⟩ := ih (p + 1) out hlt h
        exact ⟨by omega, h2, h3⟩
      · rw [if_neg hlt] at h
        exact absurd h (by simp)

theorem searchFrom_sound {r : RE} {s : Str} {p : Nat} {out : Nat × Nat × Caps}
    (hp : p ≤ s.length) (h : searchFrom r s p = some out) :
    p ≤ out.1 ∧ out.1 ≤ s.length ∧ matchAt r s out.1 = some (out.2.1, out.2.2) :=
  searchAux_sound r s (s.length + 1 - p) p out hp h

/-- Soundness of `findIter`: matches are in bounds, consume at least one
character (for patterns with positive `minL`), and appear left to right
without overlap. -/
theorem findIter_sound (r : RE) (s : Str) (hm : 1 ≤ r.minL) :
    ∀ (f p : Nat), p ≤ s.length →
      (∀ m ∈ findIter r s f p, p ≤ m.1 ∧ m.1 < m.2.1 ∧ m.2.1 ≤ s.length) ∧
      List.Chain' (fun a b : Nat × Nat × Caps => a.1 < b.1 ∧ a.2.1 ≤ b.1)
        (findIter r s f p) := by
  intro f
  induction f with
  | zero => intro p _; simp [findIter]
  | succ f ih =>
    intro p hp
    simp only [findIter]
    split
    · simp
    · next q e c hs =>
      obtain ⟨hpq, hqn, hmat⟩ := searchFrom_sound hp hs
      have hpq : p ≤ q := hpq
      have hqn : q ≤ s.length := hqn
      have hmat : matchAt r s q = some (e, c) := hmat
      obtain ⟨hqe, hen⟩ := matchAt_bounds hqn hmat
      have hqe' : q < e := by omega
      have hne : ¬ e = q := by omega
      rw [if_neg hne]
      obtain ⟨ihmem, ihch⟩ := ih e hen
      constructor
      · intro m hmem
        rcases List.mem_cons.mp hmem with hh | ht
        · subst hh; exact ⟨hpq, hqe', hen⟩
        · obtain ⟨h1, h2, h3⟩ := ihmem m ht
          exact ⟨by omega, h2, h3⟩
      · refine List.chain'_cons'.mpr ⟨?_, ihch⟩
        intro y hy
        have hym := List.mem_of_mem_head? hy
        obtain ⟨h1, _, _⟩ := ihmem y hym
        exact ⟨by omega, h1⟩

/-! ## Slicing lemmas for the block segmenter -/

theorem slice_append_drop (s : Str) (a b : Nat) (hab : a ≤ b) (hb : b ≤ s.length) :
    sliceL s a b ++ s.drop b = s.drop a := by
  unfold sliceL
  conv_rhs => rw [← List.take_append_drop b s]
  rw [List.drop_append_eq_append_drop]
  have hlen : (s.take b).length = b := by
    rw [List.length_take]; omega
  rw [hlen]
  have : a - b = 0 := by omega
  rw [this, List.drop_zero]

theorem join_zipSlices (s : Str) :
    ∀ qs : List Nat, List.Chain' (· < ·) qs → (∀ q ∈ qs, q ≤ s.length) →
      (zipSlices s qs).flatten = s.drop (qs.headD s.length) := by
  intro qs
  induction qs with
  | nil => intro _ _; simp [zipSlices, List.drop_length]
  | cons q0 t ih =>
    intro hch hmem
    cases t with
    | nil =>
      simp [zipSlices, sliceL]
    | cons q1 t2 =>
      have hch' : List.Chain' (· < ·) (q1 :: t2) := hch.tail
      have hmem' : ∀ q ∈ q1 :: t2, q ≤ s.length := fun q hq => hmem q (List.mem_cons_of_mem _ hq)
      have h01 : q0 < q1 := (List.chain'_cons.mp hch).1
      have h1n : q1 ≤ s.length := hmem' q1 (List.mem_cons_self _ _)
      have hstep : zipSlices s (q0 :: q1 :: t2) = sliceL s q0 q1 :: zipSlices s (q1 :: t2) := by
        simp [zipSlices]
      rw [hstep, List.flatten_cons, ih hch' hmem']
      simp only [List.headD]
      exact slice_append_drop s q0 q1 (by omega) h1n

theorem blocksFrom_texts (full : Str) :
    ∀ ms : List (Nat × Nat × Caps),
      (blocksFrom full ms).map Blk.text = zipSlices full (ms.map (fun m => m.1)) := by
  intro ms
  induction ms with
  | nil => simp [blocksFrom, zipSlices]
  | cons m rest ih =>
    obtain ⟨q, e, c⟩ := m
    cases rest with
    | nil =>
      simp [blocksFrom, zipSlices]
    | cons m2 rest2 =>
      obtain ⟨q2, e2, c2⟩ := m2
      simp only [blocksFrom, List.map_cons] at ih ⊢
      rw [ih]
      simp [zipSlices]

/-! ## Deduplication lemmas for the reference table -/

theorem dedupeFin_sound :
    ∀ (l : List CBRow) (seen : List Str),
      (∀ r ∈ dedupeFin seen l, ¬ r.fin ∈ seen) ∧
      List.Pairwise (fun a b : CBRow => a.fin ≠ b.fin) (dedupeFin seen l) := by
  intro l
  induction l with
  | nil => intro seen; simp [dedupeFin]
  | cons x xs ih =>
    intro seen
    simp only [dedupeFin]
    by_cases hx : x.fin ∈ seen
    · rw [if_pos hx]
      exact ih seen
    · rw [if_neg hx]
      obtain ⟨ihm, ihp⟩ := ih (x.fin :: seen)
      constructor
      · intro r hr
        rcases List.mem_cons.mp hr with hh | ht
        · subst hh; exact hx
        · intro hc
          exact (ihm r ht) (List.mem_cons_of_mem _ hc)
      · refine List.pairwise_cons.mpr ⟨?_, ihp⟩
        intro b hb
        have := ihm b hb
        intro hc
        exact this (by rw [← hc]; exact List.mem_cons_self _ _)

theorem dedupeFin_find :
    ∀ (l : List CBRow) (seen : List Str) (r : CBRow), r ∈ dedupeFin seen l →
      l.find? (fun x => x.fin = r.fin) = some r := by
  intro l
  induction l with
  | nil => intro seen r hr; simp [dedupeFin] at hr
  | cons x xs ih =>
    intro seen r hr
    simp only [dedupeFin] at hr
    by_cases hx : x.fin ∈ seen
    · rw [if_pos hx] at hr
      have hnotin := (dedupeFin_sound xs seen).1 r hr
      have hne : ¬ x.fin = r.fin := by
        intro hc; rw [hc] at hx; exact hnotin hx
      rw [List.find?_cons_of_neg _ (by simpa using hne)]
      exact ih seen r hr
    · rw [if_neg hx] at hr
      rcases List.mem_cons.mp hr with hh | ht
      · subst hh
        rw [List.find?_cons_of_pos _ (by simp)]
      · have hnotin := (dedupeFin_sound xs (x.fin :: seen)).1 r ht
        have hne : ¬ x.fin = r.fin := by
          intro hc
          exact hnotin (by rw [← hc]; exact List.mem_cons_self _ _)
        rw [List.find?_cons_of_neg _ (by simpa using hne)]
        exact ih _ r ht

/-! ## Driver and id-shape lemmas -/

theorem processBlocks_eq (bs : List Blk) :
    processBlocks bs = (bs.map parse_block, 0) := by
  induction bs with
  | nil => rfl
  | cons b rest ih => simp [processBlocks, parse_blockOpt, ih]

theorem parse_block_id_shape (b : Blk) :
    ∃ pre : Str,
      (parse_block b).id = pre ++ str "-p" ++ (Nat.repr (parse_block b).sourcePage).data ∧
      pre.length ≤ 60 ∧ (parse_block b).id ≠ [] := by
  refine ⟨(stripDash (idSub (if ¬ (ecamMsgsOf b).isEmpty then pyLower ((ecamMsgsOf b).headD [])
    else pyLower b.subtask_header))).take 60, rfl, ?_, ?_⟩
  · exact List.length_take_le 60 _
  · intro hc
    have : ((stripDash (idSub (if ¬ (ecamMsgsOf b).isEmpty then pyLower ((ecamMsgsOf b).headD [])
        else pyLower b.subtask_header))).take 60 ++ str "-p") ++
        (Nat.repr (parse_block b).sourcePage).data = [] := hc
    have h2 := List.append_eq_nil.mp this
    have h3 := List.append_eq_nil.mp h2.1
    simp [str] at h3

theorem filterMap_none {α β : Type} (l : List α) (f : α → Option β)
    (h : ∀ a, f a = none) : l.filterMap f = [] := by
  induction l with
  | nil => rfl
  | cons a t ih => rw [List.filterMap_cons, h a, ih]

/-! ## Claim theorems -/

/-- Claim C1: for every ordered sequence of page texts, the blocks produced
by `split_into_blocks` are the contiguous, non-overlapping slices of the
sentinel-annotated concatenated text between consecutive header-match
starts (which are strictly increasing and in bounds); the concatenation of
the block bodies reconstructs the concatenated text from the first header
on, and text before the first recognized header is in no block (no matches,
no blocks). -/
theorem C1_block_segmenter (pages : List Page) :
    ((split_into_blocks pages).map Blk.text =
      zipSlices (fullWithMarkers pages)
        ((findIterAll subtaskRE (fullWithMarkers pages)).map (fun m => m.1))) ∧
    List.Chain' (· < ·)
      ((findIterAll subtaskRE (fullWithMarkers pages)).map (fun m => m.1)) ∧
    (∀ q ∈ (findIterAll subtaskRE (fullWithMarkers pages)).map (fun m => m.1),
      q ≤ (fullWithMarkers pages).length) ∧
    ((split_into_blocks pages).map Blk.text).flatten =
      (fullWithMarkers pages).drop
        (((findIterAll subtaskRE (fullWithMarkers pages)).map (fun m => m.1)).headD
          (fullWithMarkers pages).length) ∧
    (findIterAll subtaskRE (fullWithMarkers pages) = [] → split_into_blocks pages = []) := by
  have hmin : 1 ≤ subtaskRE.minL := by decide
  obtain ⟨hmem, hch⟩ := findIter_sound subtaskRE (fullWithMarkers pages) hmin
    ((fullWithMarkers pages).length + 2) 0 (Nat.zero_le _)
  have htext : (split_into_blocks pages).map Blk.text =
      zipSlices (fullWithMarkers pages)
        ((findIterAll subtaskRE (fullWithMarkers pages)).map (fun m => m.1)) := by
    simp only [split_into_blocks]
    exact blocksFrom_texts _ _
  have hchain : List.Chain' (· < ·)
      ((findIterAll subtaskRE (fullWithMarkers pages)).map (fun m => m.1)) := by
    rw [List.chain'_map]
    exact hch.imp (fun a b hab => hab.1)
  have hbound : ∀ q ∈ (findIterAll subtaskRE (fullWithMarkers pages)).map (fun m => m.1),
      q ≤ (fullWithMarkers pages).length := by
    intro q hq
    obtain ⟨m, hm, rfl⟩ := List.mem_map.mp hq
    obtain ⟨_, h2, h3⟩ := hmem m hm
    omega
  refine ⟨htext, hchain, hbound, ?_, ?_⟩
  · rw [htext]
    exact join_zipSlices _ _ hchain hbound
  · intro hnil
    simp only [split_into_blocks]
    rw [hnil]
    rfl

/-- Claim C1 witness: on the one-block document `w1pages` the single header
match starts at offset 14 (in bounds) and the block bodies flatten to the
concatenated text from offset 14 on. -/
theorem C1_block_segmenter_witness :
    14 ≤ (fullWithMarkers w1pages).length ∧
    ((split_into_blocks w1pages).map Blk.text).flatten = (fullWithMarkers w1pages).drop 14 := by
  have h := C1_block_segmenter w1pages
  constructor
  · exact h.2.2.1 14 (by decide)
  · have hj := h.2.2.2.1
    have hh : (((findIterAll subtaskRE (fullWithMarkers w1pages)).map (fun m => m.1)).headD
        (fullWithMarkers w1pages).length) = 14 := by decide
    rw [hh] at hj
    exact hj

/-- Claim C5: for every applicability marker string the resolver returns a
non-empty list whose members are drawn from CEO and NEO; moreover when
neither serial-number family is found (no CEO range token, no single CEO
number, no NEO range token, no single NEO number) it fails open and returns
both variants. -/
theorem C5_resolver_nonempty (m : Str) :
    fsn_to_aircraft m ≠ [] ∧
    (∀ x ∈ fsn_to_aircraft m, x = str "CEO" ∨ x = str "NEO") ∧
    (findIterAll ceoRangeRE m = [] → searchTop ceoSingleRE m = none →
      findIterAll neoRangeRE m = [] → searchTop neoSingleRE m = none →
      fsn_to_aircraft m = [str "CEO", str "NEO"]) := by
  unfold fsn_to_aircraft
  split
  · refine ⟨by simp, ?_, fun _ _ _ _ => rfl⟩
    intro x hx
    simpa using hx
  · cases h1 : !(findIterAll ceoRangeRE m).isEmpty || (searchTop ceoSingleRE m).isSome <;>
      cases h2 : !(findIterAll neoRangeRE m).isEmpty || (searchTop neoSingleRE m).isSome <;>
      exact ⟨by simp [h1, h2], by simp [h1, h2], fun ha hb hc hd => by simp [ha, hb, hc, hd]⟩

/-- Claim C5 witness: on the marker `051-070` the result is non-empty and
its member CEO is one of the two variants; on the marker `999` neither
family is found and the resolver returns both variants. -/
theorem C5_resolver_nonempty_witness :
    fsn_to_aircraft (str "051-070") ≠ [] ∧
    (str "CEO" = str "CEO" ∨ str "CEO" = str "NEO") ∧
    fsn_to_aircraft (str "999") = [str "CEO", str "NEO"] :=
  ⟨(C5_resolver_nonempty (str "051-070")).1,
   (C5_resolver_nonempty (str "051-070")).2.1 (str "CEO") (by decide),
   (C5_resolver_nonempty (str "999")).2.2 (by decide) (by decide) (by decide) (by decide)⟩

/-- Claim C6: an empty marker, or one containing `ALL` case-insensitively,
resolves to exactly the two variants CEO and NEO. -/
theorem C6_all_marker (m : Str)
    (h : m = [] ∨ containsSeq (str "ALL") (pyUpper m) = true) :
    fsn_to_aircraft m = [str "CEO", str "NEO"] := by
  have hcond : (m.isEmpty || containsSeq (str "ALL") (pyUpper m)) = true := by
    rcases h with h | h
    · subst h; rfl
    · simp [h]
  unfold fsn_to_aircraft
  rw [if_pos hcond]

/-- Claim C6 witness: the marker `ALL` itself. -/
theorem C6_all_marker_witness : fsn_to_aircraft (str "ALL") = [str "CEO", str "NEO"] :=
  C6_all_marker (str "ALL") (Or.inr (by decide))

/-- Claim C7: `parse_block` always yields a non-empty message-identifier
list, and when both the primary pattern and the known-identifier fallback
yield nothing, the list is exactly the block header with the leading
`SUBTASK` keyword removed (and stripped). -/
theorem C7_identifiers (b : Blk) :
    (parse_block b).ecamMessages ≠ [] ∧
    (ecamPrimary b.text = [] → ecamKnownFallback b.text = [] →
      (parse_block b).ecamMessages = [pyStrip (removeAll (str "SUBTASK") b.subtask_header)]) := by
  have hmsgs : (parse_block b).ecamMessages = ecamMsgsOf b := rfl
  rw [hmsgs]
  unfold ecamMsgsOf
  constructor
  · by_cases h : (if (ecamPrimary b.text).isEmpty then ecamKnownFallback b.text
        else ecamPrimary b.text).isEmpty = true
    · rw [if_pos h]
      simp
    · rw [if_neg h]
      intro hc
      rw [hc] at h
      simp at h
  · intro h0 hf
    simp [h0, hf]

/-- Claim C7 witness: on a block with body `zz` both patterns yield nothing
and the identifier list is the stripped header. -/
theorem C7_identifiers_witness :
    (parse_block c7blk).ecamMessages ≠ [] ∧
    (parse_block c7blk).ecamMessages = [str "1-1 - AB"] := by
  have h := C7_identifiers c7blk
  refine ⟨h.1, ?_⟩
  have h2 := h.2 (by decide) (by decide)
  rw [h2]
  decide

/-- Claim C8: for every block text and default applicability, the extracted
reference table has at most 10 rows, no two rows share a FIN code, and each
returned row is the first raw match carrying its FIN code. -/
theorem C8_cb_table (text dflt : Str) :
    (parse_cb_table text dflt).length ≤ 10 ∧
    List.Pairwise (fun a b : CBRow => a.fin ≠ b.fin) (parse_cb_table text dflt) ∧
    ∀ r ∈ parse_cb_table text dflt,
      (cbRawEntries text dflt).find? (fun x => x.fin = r.fin) = some r := by
  unfold parse_cb_table
  refine ⟨List.length_take_le _ _, ?_, ?_⟩
  · exact List.Pairwise.sublist (List.take_sublist _ _)
      (dedupeFin_sound (cbRawEntries text dflt) []).2
  · intro r hr
    exact dedupeFin_find _ [] r (List.mem_of_mem_take hr)

/-- Claim C8 witness: on `c8text` (two rows with FIN `1CA1`) the table is
short and the returned row is the first raw occurrence of that FIN. -/
theorem C8_cb_table_witness :
    (parse_cb_table c8text (str "ALL")).length ≤ 10 ∧
    (cbRawEntries c8text (str "ALL")).find? (fun x => x.fin = c8row.fin) = some c8row :=
  ⟨(C8_cb_table c8text (str "ALL")).1,
   (C8_cb_table c8text (str "ALL")).2.2 c8row (by decide)⟩

/-- Claim C9: merging a prior document with records of ids x,y against a
fresh parse with ids y,z keeps both prior records first (y retaining the
prior values) and appends only the fresh record with id z. -/
theorem C9_merge (A1 A2 B1 B2 : Entry) (x y z : Str)
    (hA1 : A1.id = x) (hA2 : A2.id = y) (hB1 : B1.id = y) (hB2 : B2.id = z)
    (_hxy : x ≠ y) (hyz : y ≠ z) (hxz : x ≠ z) :
    mergeMessages [A1, A2] [B1, B2] = [A1, A2, B2] ∧
    (mergeMessages [A1, A2] [B1, B2]).map (fun m => m.id) = [x, y, z] := by
  have hzx : z ≠ x := fun hc => hxz hc.symm
  have hzy : z ≠ y := fun hc => hyz hc.symm
  constructor
  · simp [mergeMessages, List.filter_cons, hA1, hA2, hB1, hB2, hzx, hzy]
  · simp [mergeMessages, List.filter_cons, hA1, hA2, hB1, hB2, hzx, hzy]

/-- Claim C9 witness: concrete single-character ids. -/
theorem C9_merge_witness :
    mergeMessages [mkEnt (str "x"), mkEnt (str "y")] [mkEnt (str "y"), mkEnt (str "z")] =
      [mkEnt (str "x"), mkEnt (str "y"), mkEnt (str "z")] ∧
    (mergeMessages [mkEnt (str "x"), mkEnt (str "y")]
        [mkEnt (str "y"), mkEnt (str "z")]).map (fun m => m.id) =
      [str "x", str "y", str "z"] :=
  C9_merge (mkEnt (str "x")) (mkEnt (str "y")) (mkEnt (str "y")) (mkEnt (str "z"))
    (str "x") (str "y") (str "z") rfl rfl rfl rfl (by decide) (by decide) (by decide)

/-- Claim C10: the block parser returns an entry for every well-typed block
(its optional interface is never `none`), so the driver's skip-on-`None`
branch never fires: processing any block list yields one entry per block
and a skip count of zero. -/
theorem C10_parse_total :
    (∀ bs : List Blk, processBlocks bs = (bs.map parse_block, 0)) ∧
    (∀ b : Blk, parse_blockOpt b = some (parse_block b)) :=
  ⟨processBlocks_eq, fun _ => rfl⟩

set_option maxRecDepth 8000

/-- Claim C2 (code bug): the looser partial-row pattern can never contribute
a row — each of its matches has only 2 groups, so the `len(groups) >= 4`
guard drops it.  On the text `1CA1 D01` the full-row pattern has zero
matches and the partial pattern matches once, yet the extractor returns no
row (the spec says one row with empty panel/designation and the default
applicability). -/
theorem C2_partial_rows_dead :
    (∀ text dflt : Str, cbEntriesFor text dflt cbPartialRE = []) ∧
    findIterAll cbFullRE (str "1CA1 D01") = [] ∧
    (findIterAll cbPartialRE (str "1CA1 D01")).length = 1 ∧
    parse_cb_table (str "1CA1 D01") (str "ALL") = [] := by
  refine ⟨?_, by decide, by decide, by decide⟩
  intro text dflt
  exact filterMap_none _ _ (fun m => if_neg (by decide))

/-- Claim C3 counterexample: on the block of the scenario (header
`SUBTASK 24-00-810 - PACK FAULT RESET`, body containing the applicability
marker and the single line `RESET PROCEDURE: 1. Open panel 2. Press
button`), the parsed procedure is NOT the two renumbered lines the claim
states — the two steps sit on one line, which the line-splitting extractor
keeps as a single step. -/
theorem C3_counterexample :
    c3blk.subtask_header = str "SUBTASK 24-00-810 - PACK FAULT RESET" ∧
    containsSeq (str "** ON A/C FSN 051-070") c3blk.text = true ∧
    containsSeq (str "RESET PROCEDURE: 1. Open panel 2. Press button") c3blk.text = true ∧
    (parse_block c3blk).resetProcedure ≠ str "1. Open panel\n2. Press button" := by
  refine ⟨rfl, by decide, by decide, by decide⟩

/-- Claim C3 (amended): on that block the variants are exactly CEO, the
procedure is the single renumbered line `1. Open panel 2. Press button`,
and the id ends in the page suffix `-p1`. -/
theorem C3_amended_scenario :
    (parse_block c3blk).aircraft = [str "CEO"] ∧
    (parse_block c3blk).resetProcedure = str "1. Open panel 2. Press button" ∧
    (parse_block c3blk).id = str "pack-fault-reset" ++ str "-p" ++ (Nat.repr c3blk.page).data := by
  refine ⟨by decide, by decide, by decide⟩

/-- Claim C4 counterexample: a fresh run over one page holding two
textually identical SUBTASK blocks produces two records with the same id,
so ids are not pairwise distinct within the produced document. -/
theorem C4_counterexample :
    ((runFresh c4pages).map (fun m => m.id)) =
      [str "10-20-packfault-p1", str "10-20-packfault-p1"] ∧
    ¬ ((runFresh c4pages).map (fun m => m.id)).Nodup := by
  refine ⟨by decide, by decide⟩

/-- Claim C4 (amended): every record of a fresh run has a non-empty id of
the form `prefix ++ "-p" ++ <source page>` with the part before the page
suffix at most 60 characters; pairwise distinctness does not hold in
general. -/
theorem C4_amended_ids (pages : List Page) :
    ∀ m ∈ runFresh pages, m.id ≠ [] ∧
      ∃ pre : Str, m.id = pre ++ str "-p" ++ (Nat.repr m.sourcePage).data ∧ pre.length ≤ 60 := by
  intro m hm
  unfold runFresh at hm
  rw [processBlocks_eq] at hm
  obtain ⟨b, _, rfl⟩ := List.mem_map.mp hm
  obtain ⟨pre, hid, hlen, hne⟩ := parse_block_id_shape b
  exact ⟨hne, pre, hid, hlen⟩

/-- Claim C4 witness: the record parsed from `w1pages` has a non-empty,
well-shaped id. -/
theorem C4_amended_ids_witness :
    w1entry.id ≠ [] ∧
    ∃ pre : Str, w1entry.id = pre ++ str "-p" ++ (Nat.repr w1entry.sourcePage).data ∧
      pre.length ≤ 60 :=
  C4_amended_ids w1pages w1entry (by decide)
